import Mathlib

/-!
Verification of the cmus audio-plugin control layer.

The repository is a thin adapter that drives an external `cmus` music player
through its Unix-domain control socket.  Two near-identical Python modules
(`src/__init__.py` and `src/ovos_audio_plugin_cmus/__init__.py`) define a
`CmusPlayer` transport/facade class and an audio-service backend class on top
of it, plus a `load_service` factory.

This file embeds that code shallowly:

* a byte-level transport model (`socket_path`, `get_open_socket`,
  `send_socket_command`) with an explicit socket state recording the chunks
  written, the pending receive queue and the number of reads performed;
* a command-trace model of the facade methods (`is_stopped`, `is_paused`,
  `is_playing`, `toggle_pause_trace`, `play_pause_trace`, ...) in which the
  external player is abstracted as a pure reply function `String → String`
  and each method yields the list of command strings it sends;
* the backend-service operations (`service_play`, `service_stop`,
  `set_track_position`) and the `load_service` configuration filter.

Python-level semantics that the code leans on (f-string interpolation of a
list, `/` true division, `str.encode("ascii")`, `bytes.decode("utf-8")`) are
embedded explicitly below, each next to the definition that uses it.
-/

/-! ## String helpers

Python's `needle in haystack` on strings is substring containment; the code
uses it to test status replies. -/

/-- Python's `needle in hay` for strings: substring containment. -/
def strContains (needle hay : String) : Bool :=
  decide (needle.data <:+: hay.data)

/-! ## Facade command-trace model

The facade methods of `CmusPlayer` each send one or more command strings via
`send_socket_command` and inspect the textual reply.  Here the external
player is abstracted as a pure reply function `t : String → String` (the
reply it returns for each command sent), and each method is modelled by the
list of command strings it sends, in order. -/

/-- `is_stopped` (src line 72): `'status stopped' in self.send_socket_command('status')`. -/
def is_stopped (t : String → String) : Bool :=
  strContains "status stopped" (t "status")

/-- `is_paused` (src line 75): `'status paused' in self.send_socket_command('status')`. -/
def is_paused (t : String → String) : Bool :=
  strContains "status paused" (t "status")

/-- `is_playing` (src line 78): `'status playing' in self.send_socket_command('status')`. -/
def is_playing (t : String → String) : Bool :=
  strContains "status playing" (t "status")

/-- Commands sent by one `is_stopped`/`is_paused`/`is_playing` query: a single `status`. -/
def status_trace : List String := ["status"]

/-- `play` (src line 85) sends `player-play`. -/
def play_trace : List String := ["player-play"]

/-- `pause` (src line 88) sends `player-pause`. -/
def pause_trace : List String := ["player-pause"]

/-- `unpause` (src line 91) just calls `pause`. -/
def unpause_trace : List String := pause_trace

/-- `stop` (src line 94) sends `player-stop`. -/
def stop_trace : List String := ["player-stop"]

/-- `toggle_pause` (src lines 118-125): queries `is_paused` (one `status`
command) then calls `unpause` or `pause`. -/
def toggle_pause_trace (t : String → String) : List String :=
  status_trace ++ (if is_paused t then unpause_trace else pause_trace)

/-- `play_pause` (src lines 127-134): queries `is_stopped` (one `status`
command), then calls `play` if stopped, else `toggle_pause`. -/
def play_pause_trace (t : String → String) : List String :=
  status_trace ++ (if is_stopped t then play_trace else toggle_pause_trace t)

/-- `add_path` (src lines 81-83): sends `f'add {path}'`. -/
def add_path_trace (path : String) : List String :=
  ["add " ++ path]

/-! ## Python repr of a list of strings

`OVOSCmusService.play` calls `self.player.add_path(self.tracks)` where
`tracks` is a Python `list`; the f-string `f'add {path}'` interpolates
`str(list)`, i.e. the list's `repr`: brackets, comma-space separators, and
each element rendered by `repr(str)`.  `repr` of a string without characters
needing escapes picks single quotes unless the string contains a single
quote and no double quote. -/

/-- The single-quote character, `chr(39)`. -/
def sQuote : String := String.singleton (Char.ofNat 39)

/-- The double-quote character, `chr(34)`. -/
def dQuote : String := String.singleton (Char.ofNat 34)

/-- Python `repr` of a string (modelled for strings without characters that
need backslash escapes): single quotes, unless the string contains a single
quote and no double quote, in which case double quotes. -/
def pyStrRepr (s : String) : String :=
  if s.data.contains (Char.ofNat 39) && !(s.data.contains (Char.ofNat 34)) then
    dQuote ++ s ++ dQuote
  else
    sQuote ++ s ++ sQuote

/-- Python `str`/`repr` of a list of strings: `[` + comma-space-separated
element reprs + `]`. -/
def pyListRepr (xs : List String) : String :=
  "[" ++ String.intercalate ", " (xs.map pyStrRepr) ++ "]"

/-- Recognizer for `add` commands in a trace. -/
def isAddCmd (c : String) : Bool := strContains "add " c

/-! ## Backend service operations (command-trace level) -/

/-- `OVOSCmusService.play` (src lines 162-167) / `CmusOCPAudioService.play`:
`self.player.add_path(self.tracks); self.player.play()` — the whole `tracks`
list object is passed to `add_path`, so its Python repr is interpolated. -/
def service_play (tracks : List String) : List String :=
  add_path_trace (pyListRepr tracks) ++ play_trace

/-- `OVOSCmusService.stop` (src lines 169-176) / `CmusOCPAudioService.stop`:
`if self.player.is_playing(): self.player.stop(); return True` else
`return False`.  Result: the returned boolean and the commands sent. -/
def service_stop (t : String → String) : Bool × List String :=
  if is_playing t then (true, status_trace ++ stop_trace)
  else (false, status_trace)

/-! ## Configuration factory (C8)

`load_service` (src lines 255-261) receives `base_config`, takes its
`backends` mapping, and builds one `OVOSCmusService(s[1], bus, s[0])` per
entry whose `type` is `cmus` or `ovos_cmus` and whose `active` flag
(`backends[b].get('active', False)`, i.e. missing means inactive) is true.
The mapping is modelled as a name-keyed association list. -/

/-- One entry of the `backends` configuration mapping: its `type` field and
its optional `active` flag. -/
structure BackendConf where
  typ : String
  active : Option Bool
deriving DecidableEq

/-- One constructed backend instance: the entry name it was given and the
config entry it holds. -/
structure ServiceInstance where
  name : String
  conf : BackendConf
deriving DecidableEq

/-- The filter condition of `load_service`:
`backends[b]['type'] in ["cmus", 'ovos_cmus'] and backends[b].get('active', False)`. -/
def cmus_entry_matches (b : String × BackendConf) : Bool :=
  (b.2.typ == "cmus" || b.2.typ == "ovos_cmus") && b.2.active.getD false

/-- `load_service`: filter the `backends` mapping, then construct one
instance per surviving entry. -/
def load_service (backends : List (String × BackendConf)) : List ServiceInstance :=
  let services := backends.filter cmus_entry_matches
  services.map (fun s => { name := s.1, conf := s.2 })

/-! ## Seek position (C10)

`OVOSCmusService.set_track_position(milliseconds)` (src lines 207-214) calls
`self.player.seek_to_position(milliseconds / 1000)`; Python `/` on integers
is true division producing a float, and `seek_to_position` interpolates it
into `f"seek {seconds}"`.  The float value and its `str()` are modelled as
the exact rational `milliseconds / 1000` rendered as a terminating decimal
(integer part, dot, up-to-three fractional digits with trailing zeros
stripped but at least one digit — so whole values render as `x.0`). -/

/-- The fractional digits of `fp / 1000` (`0 < fp < 1000`), trailing zeros
stripped. -/
def fracThousandths (fp : Nat) : String :=
  if fp % 100 == 0 then toString (fp / 100)
  else if fp % 10 == 0 then toString (fp / 100) ++ toString (fp / 10 % 10)
  else toString (fp / 100) ++ toString (fp / 10 % 10) ++ toString (fp % 10)

/-- Python `str()` of the float `n / 1000`, as a terminating decimal. -/
def thousandthsStr (n : ℤ) : String :=
  let sign := if n < 0 then "-" else ""
  let a := n.natAbs
  let ip := a / 1000
  let fp := a % 1000
  if fp == 0 then sign ++ toString ip ++ ".0"
  else sign ++ toString ip ++ "." ++ fracThousandths fp

/-- Python `str()` of a float, modelled for the exact rationals with
denominator dividing 1000 that `set_track_position` produces. -/
def pyFloatStr (q : ℚ) : String :=
  if (q * 1000).den = 1 then thousandthsStr (q * 1000).num
  else "nonterminating"

/-- `seek_to_position` (src lines 103-104): sends `f"seek {seconds}"`. -/
def seek_to_position (seconds : ℚ) : List String :=
  ["seek " ++ pyFloatStr seconds]

/-- `set_track_position` (src lines 207-214): seeks to
`milliseconds / 1000` under Python true division. -/
def set_track_position (milliseconds : ℤ) : List String :=
  seek_to_position ((milliseconds : ℚ) / 1000)

/-! ## Transport model (byte level)

`CmusPlayer`'s socket layer (src lines 28-62): `socket_path` resolves the
control-socket path from two ordered candidates, `get_open_socket` lazily
creates and caches one connection, and `send_socket_command` writes the
ASCII-encoded command plus newline and performs a single `recv(2048)` whose
bytes are decoded as UTF-8.  Bytes are modelled as `Nat` codes; a socket is
modelled by the chunks written to it, the pending bytes the player will
deliver, and a counter of reads performed. -/

/-- Python `str.encode("ascii")`: succeeds only when every character is a
7-bit code point, yielding one byte per character. -/
def asciiEncode (s : String) : Option (List Nat) :=
  if s.data.all (fun c => c.toNat ≤ 127) then some (s.data.map Char.toNat)
  else none

/-- Is `b` a UTF-8 continuation byte (`0x80..0xBF`)? -/
def isContByte (b : Nat) : Bool := 128 ≤ b && b < 192

/-- Strict UTF-8 decoding of a byte list, as Python `bytes.decode("utf-8")`:
rejects stray continuation bytes, overlong forms, surrogates and code points
above `0x10FFFF`.  The fuel argument (instantiated with the list length,
an upper bound on the number of decoded characters) makes the recursion
structural. -/
def utf8DecodeAux : Nat → List Nat → Option (List Char)
  | _, [] => some []
  | 0, _ :: _ => none
  | fuel + 1, b :: rest =>
    if b < 128 then
      (utf8DecodeAux fuel rest).map (fun cs => Char.ofNat b :: cs)
    else if b < 194 then none
    else if b < 224 then
      match rest with
      | b2 :: rest2 =>
        if isContByte b2 then
          (utf8DecodeAux fuel rest2).map
            (fun cs => Char.ofNat ((b - 192) * 64 + (b2 - 128)) :: cs)
        else none
      | [] => none
    else if b < 240 then
      match rest with
      | b2 :: b3 :: rest2 =>
        let cp := (b - 224) * 4096 + (b2 - 128) * 64 + (b3 - 128)
        if isContByte b2 && isContByte b3 && decide (2048 ≤ cp) &&
           !(decide (55296 ≤ cp) && decide (cp ≤ 57343)) then
          (utf8DecodeAux fuel rest2).map (fun cs => Char.ofNat cp :: cs)
        else none
      | _ => none
    else if b < 245 then
      match rest with
      | b2 :: b3 :: b4 :: rest2 =>
        let cp := (b - 240) * 262144 + (b2 - 128) * 4096 + (b3 - 128) * 64 + (b4 - 128)
        if isContByte b2 && isContByte b3 && isContByte b4 &&
           decide (65536 ≤ cp) && decide (cp ≤ 1114111) then
          (utf8DecodeAux fuel rest2).map (fun cs => Char.ofNat cp :: cs)
        else none
      | _ => none
    else none

/-- Python `bytes.decode("utf-8")` on a byte list. -/
def utf8DecodeChars (l : List Nat) : Option (List Char) :=
  utf8DecodeAux l.length l

/-- A connected socket: the byte chunks written so far (one per `send`), the
pending bytes the peer will deliver, and the number of `recv` calls made. -/
structure SocketModel where
  sentChunks : List (List Nat)
  recvQueue : List Nat
  recvCount : Nat
deriving DecidableEq

/-- `socket.send(bytes)`: append one chunk. -/
def sockSend (s : SocketModel) (bytes : List Nat) : SocketModel :=
  { s with sentChunks := s.sentChunks ++ [bytes] }

/-- `socket.recv(n)`: one bounded read of at most `n` pending bytes. -/
def sockRecv (s : SocketModel) (n : Nat) : List Nat × SocketModel :=
  (s.recvQueue.take n,
   { s with recvQueue := s.recvQueue.drop n, recvCount := s.recvCount + 1 })

/-- The errors the transport can raise: the `RuntimeError` of `socket_path`
when neither candidate exists, and Python's unicode encode/decode errors. -/
inductive CmusError where
  | socketNotFound
  | unicodeEncodeError
  | unicodeDecodeError
deriving DecidableEq

/-- The two environment variables `socket_path` reads. -/
structure Env where
  xdgRuntimeDir : String
  home : String

/-- The mutable state of a `CmusPlayer`: the cached `_socket` attribute (if
set) and the list of paths passed to `socket.connect`, in order. -/
structure CmusState where
  sock : Option SocketModel
  connects : List String
deriving DecidableEq

/-- `socket_path` (src lines 55-62): try
`$XDG_RUNTIME_DIR/cmus-socket` then `$HOME/.cmus/socket`, returning the
first path that exists; raise if neither does. -/
def socket_path (env : Env) (fsExists : String → Bool) : Except CmusError String :=
  if fsExists (env.xdgRuntimeDir ++ "/cmus-socket") then
    .ok (env.xdgRuntimeDir ++ "/cmus-socket")
  else if fsExists (env.home ++ "/.cmus/socket") then
    .ok (env.home ++ "/.cmus/socket")
  else .error .socketNotFound

/-- `get_open_socket` (src lines 45-53): return the cached `_socket` if set;
otherwise resolve the path, connect a fresh socket (whose pending input is
`incoming`) and cache it.  On a resolution error no connect is attempted and
the state is unchanged. -/
def get_open_socket (env : Env) (fsExists : String → Bool) (incoming : List Nat)
    (st : CmusState) : CmusState × Except CmusError SocketModel :=
  match st.sock with
  | some s => (st, .ok s)
  | none =>
    match socket_path env fsExists with
    | .error e => (st, .error e)
    | .ok p =>
      let s : SocketModel := ⟨[], incoming, 0⟩
      (⟨some s, st.connects ++ [p]⟩, .ok s)

/-- `send_socket_command` (src lines 34-43): obtain the open socket, send
the ASCII encoding of the command plus `"\n"`, then perform exactly one
`recv(2048)` and decode the bytes as UTF-8. -/
def send_socket_command (env : Env) (fsExists : String → Bool)
    (incoming : List Nat) (st : CmusState) (command : String) :
    CmusState × Except CmusError String :=
  match get_open_socket env fsExists incoming st with
  | (st1, .error e) => (st1, .error e)
  | (st1, .ok s) =>
    match asciiEncode (command ++ "\n") with
    | none => (st1, .error .unicodeEncodeError)
    | some bytes =>
      let s1 := sockSend s bytes
      let (data, s2) := sockRecv s1 2048
      (⟨some s2, st1.connects⟩,
       match utf8DecodeChars data with
       | none => .error .unicodeDecodeError
       | some cs => .ok (String.mk cs))

/-- Sequential execution of a list of commands against one `CmusPlayer`,
threading its state. -/
def runCommands (env : Env) (fsExists : String → Bool) (incoming : List Nat) :
    List String → CmusState → CmusState × List (Except CmusError String)
  | [], st => (st, [])
  | c :: cs, st =>
    let r1 := send_socket_command env fsExists incoming st c
    let r2 := runCommands env fsExists incoming cs r1.1
    (r2.1, r1.2 :: r2.2)

/-! ## Theorems: status queries (C3) -/

/-- C3: `is_stopped`, `is_paused` and `is_playing` are three independent
substring tests for `status stopped` / `status paused` / `status playing` on
the reply to the `status` command; for a reply containing exactly one of the
three substrings only the matching query returns true, and for a reply
containing none of them all three queries return false. -/
theorem status_queries_independent (t : String → String) :
    (strContains "status stopped" (t "status") = true →
     strContains "status paused" (t "status") = false →
     strContains "status playing" (t "status") = false →
       is_stopped t = true ∧ is_paused t = false ∧ is_playing t = false)
  ∧ (strContains "status stopped" (t "status") = false →
     strContains "status paused" (t "status") = true →
     strContains "status playing" (t "status") = false →
       is_stopped t = false ∧ is_paused t = true ∧ is_playing t = false)
  ∧ (strContains "status stopped" (t "status") = false →
     strContains "status paused" (t "status") = false →
     strContains "status playing" (t "status") = true →
       is_stopped t = false ∧ is_paused t = false ∧ is_playing t = true)
  ∧ (strContains "status stopped" (t "status") = false →
     strContains "status paused" (t "status") = false →
     strContains "status playing" (t "status") = false →
       is_stopped t = false ∧ is_paused t = false ∧ is_playing t = false) := by
  simp only [is_stopped, is_paused, is_playing]
  exact ⟨fun a b c => ⟨a, b, c⟩, fun a b c => ⟨a, b, c⟩,
         fun a b c => ⟨a, b, c⟩, fun a b c => ⟨a, b, c⟩⟩

/-- Witness for C3: a canned `status playing` reply makes only `is_playing`
return true. -/
theorem status_queries_independent_witness :
    is_stopped (fun _ => "status playing") = false ∧
    is_paused (fun _ => "status playing") = false ∧
    is_playing (fun _ => "status playing") = true :=
  (status_queries_independent (fun _ => "status playing")).2.2.1
    (by decide) (by decide) (by decide)

/-! ## Theorems: play_pause (C4) -/

/-- C4: `play_pause` called when the player reports a stopped status issues
exactly one `player-play` command and no pause command; when the player
reports a playing status (not stopped, not paused) it issues exactly one
`player-pause` toggle command; when the player reports a paused status it
issues the same `player-pause` toggle command exactly once. -/
theorem play_pause_spec (t : String → String) :
    (is_stopped t = true →
       (play_pause_trace t).count "player-play" = 1 ∧
       (play_pause_trace t).count "player-pause" = 0)
  ∧ (is_playing t = true → is_stopped t = false → is_paused t = false →
       (play_pause_trace t).count "player-pause" = 1 ∧
       (play_pause_trace t).count "player-play" = 0)
  ∧ (is_paused t = true → is_stopped t = false →
       (play_pause_trace t).count "player-pause" = 1 ∧
       (play_pause_trace t).count "player-play" = 0) := by
  refine ⟨fun h => ?_, fun _ h hp => ?_, fun hp h => ?_⟩
  · have e : play_pause_trace t = ["status", "player-play"] := by
      simp [play_pause_trace, h, status_trace, play_trace]
    rw [e]; exact ⟨by decide, by decide⟩
  · have e : play_pause_trace t = ["status", "status", "player-pause"] := by
      simp [play_pause_trace, toggle_pause_trace, h, hp, status_trace,
            pause_trace, unpause_trace]
    rw [e]; exact ⟨by decide, by decide⟩
  · have e : play_pause_trace t = ["status", "status", "player-pause"] := by
      simp [play_pause_trace, toggle_pause_trace, h, hp, status_trace,
            pause_trace, unpause_trace]
    rw [e]; exact ⟨by decide, by decide⟩

/-- Witness for C4: from a stopped status, `play_pause` sends one
`player-play` and no pause command. -/
theorem play_pause_spec_witness :
    (play_pause_trace (fun _ => "status stopped")).count "player-play" = 1 ∧
    (play_pause_trace (fun _ => "status stopped")).count "player-pause" = 0 :=
  (play_pause_spec (fun _ => "status stopped")).1 (by decide)

/-! ## Theorems: service stop (C5) -/

/-- C5: the backend's `stop` returns `false` and sends no stop command when
the player's reported state is already stopped, returns `true` and sends
exactly one `player-stop` when the reported state is playing, and in all
cases the returned boolean equals whether a stop command was issued. -/
theorem service_stop_spec (t : String → String) :
    (is_stopped t = true → is_playing t = false →
       service_stop t = (false, ["status"]))
  ∧ (is_playing t = true →
       service_stop t = (true, ["status", "player-stop"]))
  ∧ ((service_stop t).1 = true ↔ (service_stop t).2.count "player-stop" = 1) := by
  refine ⟨fun _ h => ?_, fun h => ?_, ?_⟩
  · simp [service_stop, h, status_trace]
  · simp [service_stop, h, status_trace, stop_trace]
  · by_cases h : is_playing t = true
    · have e : service_stop t = (true, ["status", "player-stop"]) := by
        simp [service_stop, h, status_trace, stop_trace]
      rw [e]; simp
    · have e : service_stop t = (false, ["status"]) := by
        simp [service_stop, status_trace, h]
      rw [e]; simp

/-- Witness for C5: with a playing status, `stop` returns `true` and sends
exactly one `player-stop`. -/
theorem service_stop_spec_witness :
    service_stop (fun _ => "status playing") = (true, ["status", "player-stop"]) :=
  (service_stop_spec (fun _ => "status playing")).2.1 (by decide)

/-! ## Theorems: service play emits add then play (C6) -/

/-- C6: for every queued track list, the backend's `play` emits exactly one
`add` command carrying the entire queued set, followed by exactly one
`player-play` command, with the `add` strictly before the play. -/
theorem service_play_spec (tracks : List String) :
    service_play tracks = ["add " ++ pyListRepr tracks, "player-play"]
  ∧ (service_play tracks).countP (fun c => isAddCmd c) = 1
  ∧ (service_play tracks).count "player-play" = 1 := by
  have e : service_play tracks = ["add " ++ pyListRepr tracks, "player-play"] := rfl
  have hadd : isAddCmd ("add " ++ pyListRepr tracks) = true := by
    simp only [isAddCmd, strContains, decide_eq_true_eq]
    rw [show ("add " ++ pyListRepr tracks).data
          = "add ".data ++ (pyListRepr tracks).data from rfl]
    exact (List.prefix_append _ _).isInfix
  have hne : ("add " ++ pyListRepr tracks) ≠ "player-play" := by
    intro h
    have h2 : ("add " ++ pyListRepr tracks).data.head? = "player-play".data.head? := by
      rw [h]
    rw [show ("add " ++ pyListRepr tracks).data
          = "add ".data ++ (pyListRepr tracks).data from rfl] at h2
    have h3 : ("add ".data ++ (pyListRepr tracks).data).head? = some (Char.ofNat 97) := rfl
    rw [h3] at h2
    exact absurd h2 (by decide)
  have hpp : isAddCmd "player-play" = false := by decide
  refine ⟨e, ?_, ?_⟩
  · rw [e]
    simp [List.countP_cons, hadd, hpp]
  · rw [e]
    simp [List.count_cons, List.count_nil, beq_iff_eq, hne]

/-! ## Theorems: the add argument is the Python list repr (C9) -/

/-- C9: for every non-empty track list, the single `add` command emitted by
the backend's `play` carries the Python list representation of the whole
track list as its argument — bracketed, with quoted elements — because the
list object itself is interpolated into the `add {path}` format string. -/
theorem service_play_interpolates_list_repr (tracks : List String)
    (_h : tracks ≠ []) :
    service_play tracks = ["add " ++ pyListRepr tracks, "player-play"]
  ∧ (pyListRepr tracks).data.head? = some (Char.ofNat 91)
  ∧ (pyListRepr tracks).data.getLast? = some (Char.ofNat 93) := by
  refine ⟨rfl, rfl, ?_⟩
  rw [show (pyListRepr tracks).data
        = ("[" ++ String.intercalate ", " (tracks.map pyStrRepr)).data
            ++ [Char.ofNat 93] from rfl]
  exact List.getLast?_concat _

/-- Witness for C9: on the queue `[a.mp3, b.mp3]` the emitted add command is
literally `add ['a.mp3', 'b.mp3']` (brackets and single quotes included). -/
theorem service_play_interpolates_list_repr_witness :
    service_play ["a.mp3", "b.mp3"] =
      ["add [" ++ sQuote ++ "a.mp3" ++ sQuote ++ ", " ++ sQuote ++ "b.mp3" ++ sQuote ++ "]",
       "player-play"] := by
  have h := service_play_interpolates_list_repr ["a.mp3", "b.mp3"] (by decide)
  exact h.1.trans (by decide)

/-- C8: the factory constructs exactly one backend instance per entry whose
`type` is one of the two recognized identifiers and whose `active` flag is
true; every constructed instance comes from such an entry; and the matching
condition demands `active` present and true, so a missing flag is inactive. -/
theorem load_service_spec (backends : List (String × BackendConf)) :
    (load_service backends).length = backends.countP cmus_entry_matches
  ∧ (∀ inst ∈ load_service backends, ∃ b ∈ backends,
       cmus_entry_matches b = true ∧ inst = ⟨b.1, b.2⟩)
  ∧ backends.countP cmus_entry_matches
      = backends.countP (fun b =>
          (b.2.typ == "cmus" || b.2.typ == "ovos_cmus") && b.2.active == some true) := by
  refine ⟨?_, ?_, ?_⟩
  · simp [load_service, List.countP_eq_length_filter]
  · intro inst hinst
    simp only [load_service, List.mem_map] at hinst
    obtain ⟨b, hb, rfl⟩ := hinst
    obtain ⟨hbl, hbp⟩ := List.mem_filter.mp hb
    exact ⟨b, hbl, hbp, rfl⟩
  · apply List.countP_congr
    intro b _
    cases hb : b.2.active with
    | none => simp [cmus_entry_matches, hb]
    | some v => cases v <;> simp [cmus_entry_matches, hb]

/-- Witness for C8: of three entries — an active recognized one, an active
unrecognized one, and a recognized one with no `active` flag — exactly one
instance is constructed. -/
theorem load_service_spec_witness :
    (load_service [("cmus", ⟨"ovos_cmus", some true⟩),
                   ("x", ⟨"vlc", some true⟩),
                   ("y", ⟨"cmus", none⟩)]).length = 1 := by
  have h := load_service_spec [("cmus", ⟨"ovos_cmus", some true⟩),
                               ("x", ⟨"vlc", some true⟩),
                               ("y", ⟨"cmus", none⟩)]
  exact h.1.trans (by decide)

/-- C10: `set_track_position m` sends `seek` followed by `m` divided by 1000
under exact (true) division — the command carries the decimal rendering of
the exact rational `m / 1000` — so an input that is not a multiple of 1000
passes a genuinely fractional (non-integer) seconds value rather than a
truncated integer. -/
theorem set_track_position_true_division (m : ℤ) :
    set_track_position m = ["seek " ++ thousandthsStr m]
  ∧ (m % 1000 ≠ 0 → ∀ k : ℤ, ((m : ℚ) / 1000) ≠ (k : ℚ)) := by
  constructor
  · show seek_to_position ((m : ℚ) / 1000) = _
    unfold seek_to_position pyFloatStr
    have hmul : ((m : ℚ) / 1000) * 1000 = (m : ℚ) :=
      div_mul_cancel₀ _ (by norm_num)
    rw [hmul]
    simp [Rat.den_intCast, Rat.num_intCast]
  · intro hm k hk
    have h1 : (m : ℚ) = (k : ℚ) * 1000 := (div_eq_iff (by norm_num)).mp hk
    have h2 : m = k * 1000 := by exact_mod_cast h1
    exact hm (Int.emod_eq_zero_of_dvd ⟨k, by linarith⟩)

/-- Witness for C10: 1500 milliseconds produces `seek 1.5`, and the value
passed is not an integer. -/
theorem set_track_position_true_division_witness :
    set_track_position 1500 = ["seek 1.5"] ∧
    ∀ k : ℤ, ((1500 : ℚ) / 1000) ≠ (k : ℚ) := by
  have h := set_track_position_true_division 1500
  exact ⟨h.1.trans (by decide), fun k => h.2 (by decide) k⟩

/-! ## Theorems: send_socket_command (C1) -/

/-- C1: on an established connection, `send_socket_command` sends exactly the
input command with exactly one newline appended, encoded as ASCII (one byte
per character, newline byte 10), then performs exactly one bounded read — the
read counter rises by one and the bytes read are at most 2048 — and returns
the UTF-8 decoding of those bytes verbatim. -/
theorem send_socket_command_spec (env : Env) (fsExists : String → Bool)
    (incoming : List Nat) (st : CmusState) (s : SocketModel) (command : String)
    (cs : List Char)
    (hs : st.sock = some s)
    (hA : command.data.all (fun c => c.toNat ≤ 127) = true)
    (hD : utf8DecodeChars (s.recvQueue.take 2048) = some cs) :
    send_socket_command env fsExists incoming st command =
      (⟨some ⟨s.sentChunks ++ [command.data.map Char.toNat ++ [10]],
             s.recvQueue.drop 2048, s.recvCount + 1⟩,
        st.connects⟩,
       .ok (String.mk cs))
  ∧ (s.recvQueue.take 2048).length ≤ 2048 := by
  constructor
  · have h1 : get_open_socket env fsExists incoming st = (st, .ok s) := by
      unfold get_open_socket; rw [hs]
    have henc : asciiEncode (command ++ "\n")
        = some (command.data.map Char.toNat ++ [10]) := by
      unfold asciiEncode
      rw [show (command ++ "\n").data = command.data ++ ['\n'] from rfl,
          List.all_append, hA]
      simp
    unfold send_socket_command
    rw [h1, henc]
    simp only [sockSend, sockRecv]
    rw [hD]
  · rw [List.length_take]
    exact min_le_left _ _

/-- Witness for C1: sending `status` on a connection whose pending reply
bytes are `ok` appends the seven ASCII bytes of `status` plus newline as one
chunk, performs one read, and returns `"ok"`. -/
theorem send_socket_command_spec_witness :
    send_socket_command ⟨"/run", "/home/u"⟩ (fun _ => true) []
        ⟨some ⟨[], [111, 107], 0⟩, ["/run/cmus-socket"]⟩ "status"
      = (⟨some ⟨[[115, 116, 97, 116, 117, 115, 10]], [], 1⟩, ["/run/cmus-socket"]⟩,
         .ok "ok") := by
  have h := send_socket_command_spec ⟨"/run", "/home/u"⟩ (fun _ => true) []
    ⟨some ⟨[], [111, 107], 0⟩, ["/run/cmus-socket"]⟩ ⟨[], [111, 107], 0⟩ "status"
    [Char.ofNat 111, Char.ofNat 107] rfl (by decide) (by decide)
  exact h.1.trans (by rfl)

/-! ## Theorems: socket path resolution (C2) -/

/-- C2: `socket_path` checks the XDG-runtime candidate first and the
home-directory candidate second, returning the first that exists; with only
the home candidate existing, `get_open_socket` connects to that path; with
neither existing, it fails with the socket-not-found error, attempts no
connection, and leaves the state unchanged. -/
theorem socket_path_resolution (env : Env) (fsExists : String → Bool)
    (st : CmusState) (hnone : st.sock = none) :
    (fsExists (env.xdgRuntimeDir ++ "/cmus-socket") = true →
       socket_path env fsExists = .ok (env.xdgRuntimeDir ++ "/cmus-socket"))
  ∧ (fsExists (env.xdgRuntimeDir ++ "/cmus-socket") = false →
     fsExists (env.home ++ "/.cmus/socket") = true →
       socket_path env fsExists = .ok (env.home ++ "/.cmus/socket")
     ∧ ∀ incoming, get_open_socket env fsExists incoming st =
         (⟨some ⟨[], incoming, 0⟩, st.connects ++ [env.home ++ "/.cmus/socket"]⟩,
          .ok ⟨[], incoming, 0⟩))
  ∧ (fsExists (env.xdgRuntimeDir ++ "/cmus-socket") = false →
     fsExists (env.home ++ "/.cmus/socket") = false →
       socket_path env fsExists = .error CmusError.socketNotFound
     ∧ ∀ incoming, get_open_socket env fsExists incoming st =
         (st, .error CmusError.socketNotFound)) := by
  refine ⟨fun h1 => ?_, fun h1 h2 => ⟨?_, fun incoming => ?_⟩,
          fun h1 h2 => ⟨?_, fun incoming => ?_⟩⟩
  · simp [socket_path, h1]
  · simp [socket_path, h1, h2]
  · have hsp : socket_path env fsExists = .ok (env.home ++ "/.cmus/socket") := by
      simp [socket_path, h1, h2]
    unfold get_open_socket
    rw [hnone, hsp]
  · simp [socket_path, h1, h2]
  · have hsp : socket_path env fsExists = .error CmusError.socketNotFound := by
      simp [socket_path, h1, h2]
    unfold get_open_socket
    rw [hnone, hsp]

/-- Witness for C2: with neither candidate path existing, resolution fails
with the not-found error and `get_open_socket` performs no connect and leaves
the state unchanged. -/
theorem socket_path_resolution_witness :
    socket_path ⟨"/run", "/home/u"⟩ (fun _ => false) = .error CmusError.socketNotFound
  ∧ get_open_socket ⟨"/run", "/home/u"⟩ (fun _ => false) [] ⟨none, []⟩
      = (⟨none, []⟩, .error CmusError.socketNotFound) := by
  have h := socket_path_resolution ⟨"/run", "/home/u"⟩ (fun _ => false) ⟨none, []⟩ rfl
  exact ⟨(h.2.2 rfl rfl).1, (h.2.2 rfl rfl).2 []⟩

/-! ## Theorems: single cached connection (C7) -/

/-- If the `_socket` attribute is already set, one `send_socket_command`
performs no connect (the connect list is unchanged) and leaves a cached
socket in place. -/
theorem send_keeps_connection (env : Env) (fsExists : String → Bool)
    (incoming : List Nat) (st : CmusState) (c : String) (s : SocketModel)
    (h : st.sock = some s) :
    (send_socket_command env fsExists incoming st c).1.connects = st.connects
  ∧ ∃ s2, (send_socket_command env fsExists incoming st c).1.sock = some s2 := by
  have h1 : get_open_socket env fsExists incoming st = (st, .ok s) := by
    unfold get_open_socket; rw [h]
  unfold send_socket_command
  rw [h1]
  cases henc : asciiEncode (c ++ "\n") with
  | none => exact ⟨rfl, s, h⟩
  | some bytes => exact ⟨rfl, _, rfl⟩

/-- With no cached socket, one `send_socket_command` either fails to resolve
the path (state unchanged) or connects exactly once to the resolved path. -/
theorem send_fresh_connection (env : Env) (fsExists : String → Bool)
    (incoming : List Nat) (st : CmusState) (c : String)
    (h : st.sock = none) :
    (∀ e, socket_path env fsExists = .error e →
       (send_socket_command env fsExists incoming st c).1 = st)
  ∧ (∀ p, socket_path env fsExists = .ok p →
       ∃ s2, (send_socket_command env fsExists incoming st c).1
           = ⟨some s2, st.connects ++ [p]⟩) := by
  constructor
  · intro e hsp
    have h1 : get_open_socket env fsExists incoming st = (st, .error e) := by
      unfold get_open_socket; rw [h, hsp]
    unfold send_socket_command
    rw [h1]
  · intro p hsp
    have h1 : get_open_socket env fsExists incoming st
        = (⟨some ⟨[], incoming, 0⟩, st.connects ++ [p]⟩, .ok ⟨[], incoming, 0⟩) := by
      unfold get_open_socket; rw [h, hsp]
    unfold send_socket_command
    rw [h1]
    cases henc : asciiEncode (c ++ "\n") with
    | none => exact ⟨_, rfl⟩
    | some bytes => exact ⟨_, rfl⟩

/-- Once a socket is cached, a whole command sequence performs no further
connect. -/
theorem runCommands_keeps_connection (env : Env) (fsExists : String → Bool)
    (incoming : List Nat) :
    ∀ (cmds : List String) (st : CmusState) (s : SocketModel),
      st.sock = some s →
      (runCommands env fsExists incoming cmds st).1.connects = st.connects := by
  intro cmds
  induction cmds with
  | nil => intro st s _; rfl
  | cons c cs ih =>
    intro st s h
    obtain ⟨hc, s2, hs2⟩ := send_keeps_connection env fsExists incoming st c s h
    show (runCommands env fsExists incoming cs
            (send_socket_command env fsExists incoming st c).1).1.connects = st.connects
    rw [ih (send_socket_command env fsExists incoming st c).1 s2 hs2, hc]

/-- If path resolution fails, a whole command sequence leaves the state
unchanged: no connection is ever made. -/
theorem runCommands_unresolved (env : Env) (fsExists : String → Bool)
    (incoming : List Nat) (e : CmusError)
    (hsp : socket_path env fsExists = .error e) :
    ∀ (cmds : List String) (st : CmusState), st.sock = none →
      (runCommands env fsExists incoming cmds st).1 = st := by
  intro cmds
  induction cmds with
  | nil => intro st _; rfl
  | cons c cs ih =>
    intro st h
    have h1 : (send_socket_command env fsExists incoming st c).1 = st :=
      (send_fresh_connection env fsExists incoming st c h).1 e hsp
    show (runCommands env fsExists incoming cs
            (send_socket_command env fsExists incoming st c).1).1 = st
    rw [h1]
    exact ih st h

/-- C7: the transport client holds at most one connection: starting from a
fresh client (no cached socket, no connects), any command sequence performs
at most one connect in total, and when path resolution succeeds the first
command creates the one connection that every subsequent command reuses —
the connect list ends up being exactly one entry. -/
theorem connection_created_once (env : Env) (fsExists : String → Bool)
    (incoming : List Nat) (cmds : List String) (st : CmusState)
    (h0 : st.sock = none) (hc0 : st.connects = []) :
    (runCommands env fsExists incoming cmds st).1.connects.length ≤ 1
  ∧ (∀ p, socket_path env fsExists = .ok p → cmds ≠ [] →
       (runCommands env fsExists incoming cmds st).1.connects = [p]) := by
  cases cmds with
  | nil => simp [runCommands, hc0]
  | cons c cs =>
    cases hsp : socket_path env fsExists with
    | error e =>
      have h1 := runCommands_unresolved env fsExists incoming e hsp (c :: cs) st h0
      rw [h1, hc0]
      exact ⟨by simp, fun p hp => Except.noConfusion hp⟩
    | ok p =>
      obtain ⟨s2, hs⟩ := (send_fresh_connection env fsExists incoming st c h0).2 p hsp
      have hrun : (runCommands env fsExists incoming (c :: cs) st).1.connects
          = st.connects ++ [p] := by
        show (runCommands env fsExists incoming cs
                (send_socket_command env fsExists incoming st c).1).1.connects
            = st.connects ++ [p]
        rw [hs]
        exact runCommands_keeps_connection env fsExists incoming cs _ s2 rfl
      rw [hrun, hc0]
      exact ⟨by simp, fun q hq _ => by injection hq with hpq; simp [hpq]⟩

/-- Witness for C7: two commands against a fresh client create exactly one
connection, to the resolved socket path. -/
theorem connection_created_once_witness :
    (runCommands ⟨"/run", "/home/u"⟩ (fun _ => true) []
        ["status", "player-play"] ⟨none, []⟩).1.connects = ["/run/cmus-socket"] := by
  have h := connection_created_once ⟨"/run", "/home/u"⟩ (fun _ => true) []
    ["status", "player-play"] ⟨none, []⟩ rfl rfl
  exact h.2 "/run/cmus-socket" rfl (by decide)
